import Mathlib

/-!
# git-monitor: webhook signature gate, event ingestion and last-push report

A shallow embedding of `src/main.go`.  The three gin handlers
(`verifyGitHubSignature`, `githubWebhookHandler`, `lastPushHandler`) are
functions on an explicit request context.  Library code the handlers call
(gin's handler chain and response writer, `hmac.Equal`, `hex.EncodeToString`,
`time.Parse`, `Time.UTC`, `Time.Format`, the `ORDER BY` query) is modelled
next to them; HMAC-SHA256, the JSON decoder, the generic layout parser of
package `time` and the float conversion of `Duration.Hours` are parameters.
-/

namespace GitMonitor

/-! ## Bytes -/

/-- A Go `byte`. -/
abbrev Byte := Fin 256

/-- A Go `[]byte`, also used for Go strings that are compared bytewise. -/
abbrev Bytes := List Byte

/-- Bytes of an ASCII string literal. -/
def strBytes (s : String) : Bytes :=
  s.toList.map (fun ch => Fin.ofNat ch.toNat)

/-- The table `hextable` of `encoding/hex`. -/
def hextable : List Char := "0123456789abcdef".toList

/-- Model of `hex.EncodeToString`: two lower-case digits per byte,
`hextable[v>>4]` then `hextable[v&0x0f]`. -/
def hexEncodeToString : Bytes → Bytes
  | [] => []
  | v :: rest =>
      Fin.ofNat (hextable.getD (v.val >>> 4) '0').toNat
        :: Fin.ofNat (hextable.getD (v.val &&& 0x0f) '0').toNat
        :: hexEncodeToString rest

/-- The loop of `subtle.ConstantTimeCompare`: `v |= x[i] ^ y[i]` for every
index, with the list of indices visited. -/
def constantTimeLoop : Bytes → Bytes → Nat → Nat → List Nat → Nat × List Nat
  | a :: x, b :: y, i, v, visited =>
      constantTimeLoop x y (i + 1) ((v ||| (a.val ^^^ b.val)) % 256) (visited ++ [i])
  | _, _, _, v, visited => (v, visited)

/-- Model of `subtle.ConstantTimeByteEq`: `int((uint32(x^y) - 1) >> 31)`. -/
def constantTimeByteEq (x y : Nat) : Nat :=
  (((x ^^^ y) % 2 ^ 32 + 2 ^ 32 - 1) % 2 ^ 32) >>> 31

/-- Model of `subtle.ConstantTimeCompare`, instrumented with the indices the
loop visits: 0 at once when the lengths differ, else the whole loop runs. -/
def constantTimeCompareTrace (x y : Bytes) : Nat × List Nat :=
  if x.length ≠ y.length then (0, [])
  else
    let r := constantTimeLoop x y 0 0 []
    (constantTimeByteEq r.1 0, r.2)

/-- Model of `subtle.ConstantTimeCompare`. -/
def constantTimeCompare (x y : Bytes) : Nat :=
  (constantTimeCompareTrace x y).1

/-- Model of `hmac.Equal`. -/
def hmacEqual (mac1 mac2 : Bytes) : Bool :=
  constantTimeCompare mac1 mac2 == 1

/-! ## JSON values and time -/

/-- A value decoded by `encoding/json` into `interface{}`; a number is a
`float64`, kept as its bit pattern. -/
inductive JSON where
  | null
  | bool (b : Bool)
  | number (bits : Nat)
  | str (s : String)
  | arr (items : List JSON)
  | obj (fields : List (String × JSON))

/-- A Go `map[string]interface{}` (`gin.H`), as an association list. -/
abbrev GoMap := List (String × JSON)

/-- Name of the dynamic type of an `interface{}` value, as the runtime prints
it in a failed type assertion. -/
def goTypeName : Option JSON → String
  | none => "nil"
  | some .null => "nil"
  | some (.bool _) => "bool"
  | some (.number _) => "float64"
  | some (.str _) => "string"
  | some (.arr _) => "[]interface {}"
  | some (.obj _) => "map[string]interface {}"

/-- A `time.Time`: an instant (seconds and nanoseconds since the Unix epoch)
and the offset, in seconds east of UTC, of the location it is shown in. -/
structure Time where
  unixSec : Int
  nsec : Nat
  offset : Int
deriving DecidableEq, Repr

/-- The zero `Time{}`: January 1, year 1, 00:00:00 UTC. -/
def Time.zero : Time := ⟨-62135596800, 0, 0⟩

/-- Model of `Time.UTC`: the same instant, location UTC. -/
def Time.UTC (t : Time) : Time := { t with offset := 0 }

/-- The instant of a time in nanoseconds since the Unix epoch. -/
def Time.unixNano (t : Time) : Int := t.unixSec * 1000000000 + t.nsec

/-! ## Package `time`: parsing and formatting RFC3339 -/

/-- Model of `isLeap` of package `time`. -/
def isLeap (year : Int) : Bool :=
  year % 4 == 0 && (year % 100 != 0 || year % 400 == 0)

/-- The table `daysBefore` of package `time`. -/
def daysBefore : List Nat :=
  [0, 31, 59, 90, 120, 151, 181, 212, 243, 273, 304, 334, 365]

/-- Model of `daysIn` of package `time`. -/
def daysIn (m : Nat) (year : Int) : Nat :=
  if m = 2 ∧ isLeap year then 29
  else daysBefore.getD m 0 - daysBefore.getD (m - 1) 0

/-- Days from January 1 of year 1 to January 1 of `year` (proleptic
Gregorian calendar). -/
def daysSinceYear1 (year : Int) : Int :=
  365 * (year - 1) + (year - 1) / 4 - (year - 1) / 100 + (year - 1) / 400

/-- Days from January 1 of year 1 to the Unix epoch. -/
def unixEpochDays : Int := 719162

/-- Model of `time.Date(year, month, day, hour, min, sec, nsec, UTC)` for
fields that are in range (no normalisation), as `parseRFC3339` calls it. -/
def Date (year : Int) (month day hour min sec nsec : Nat) : Time :=
  let d : Int := daysSinceYear1 year + daysBefore.getD (month - 1) 0
    + (if isLeap year ∧ 3 ≤ month then 1 else 0) + (day - 1 : Nat)
  { unixSec := (d - unixEpochDays) * 86400 + (hour * 3600 + min * 60 + sec : Nat),
    nsec := nsec, offset := 0 }

/-- Decimal digit test, `'0' <= c && c <= '9'`. -/
def isDigit (c : Char) : Bool := 48 ≤ c.toNat && c.toNat ≤ 57

/-- The closure `parseUint` of `parseRFC3339`: an unsigned decimal integer
within `[min, max]`. -/
def parseUint (s : List Char) (min max : Nat) : Option Nat :=
  if s.all isDigit then
    let x := s.foldl (fun x c => x * 10 + (c.toNat - 48)) 0
    if x < min ∨ max < x then none else some x
  else none

/-- The slice `s[a:b]`. -/
def slice (s : List Char) (a b : Nat) : List Char := (s.drop a).take (b - a)

/-- Model of `parseNanoseconds` on the digits after the separator: at most
nine digits are read and scaled to nanoseconds. -/
def parseNanoseconds (digits : List Char) : Nat :=
  let ds := digits.take 9
  ds.foldl (fun x c => x * 10 + (c.toNat - 48)) 0 * 10 ^ (9 - ds.length)

/-- Model of `parseRFC3339` of package `time` (the strict fast path of
`time.Parse` for the layout `time.RFC3339`).  Go indexes the bytes of the
string; every accepted string is ASCII, so indexing characters agrees. -/
def parseRFC3339 (value : String) : Option Time :=
  let s := value.toList
  if s.length < 19 then none
  else do
    let year ← parseUint (slice s 0 4) 0 9999
    let month ← parseUint (slice s 5 7) 1 12
    let day ← parseUint (slice s 8 10) 1 (daysIn month year)
    let hour ← parseUint (slice s 11 13) 0 23
    let min ← parseUint (slice s 14 16) 0 59
    let sec ← parseUint (slice s 17 19) 0 59
    if s.get? 4 = some '-' ∧ s.get? 7 = some '-' ∧ s.get? 10 = some 'T'
        ∧ s.get? 13 = some ':' ∧ s.get? 16 = some ':' then
      let s1 := s.drop 19
      let frac := 2 ≤ s1.length ∧ s1.get? 0 = some '.' ∧ (s1.get? 1).any isDigit
      let digits := if frac then (s1.drop 1).takeWhile isDigit else []
      let nsec := if frac then parseNanoseconds digits else 0
      let s2 := if frac then s1.drop (1 + digits.length) else s1
      let t := Date year month day hour min sec nsec
      if s2 = ['Z'] then some t
      else if s2.length ≠ 6 then none
      else do
        let hr ← parseUint (slice s2 1 3) 0 23
        let mm ← parseUint (slice s2 4 6) 0 59
        if (s2.get? 0 = some '-' ∨ s2.get? 0 = some '+') ∧ s2.get? 3 = some ':' then
          let zoneOffset : Int :=
            if s2.get? 0 = some '-' then -(((hr * 60 + mm) * 60 : Nat) : Int)
            else (((hr * 60 + mm) * 60 : Nat) : Int)
          some { unixSec := t.unixSec - zoneOffset, nsec := t.nsec, offset := zoneOffset }
        else none
    else none

/-- Model of `time.Parse(time.RFC3339, value)`: the fast path
`parseRFC3339`, else the generic layout parser `parseLayout` (a parameter).
On an error Go returns the zero `Time{}` with it. -/
def timeParse (parseLayout : String → Except String Time) (value : String) :
    Time × Option String :=
  match parseRFC3339 value with
  | some t => (t, none)
  | none =>
    match parseLayout value with
    | .ok t => (t, none)
    | .error err => (Time.zero, some err)

/-- Model of `appendInt` of package `time`: sign, zero padding to `width`,
decimal digits. -/
def appendInt (x : Int) (width : Nat) : String :=
  let digits := (Nat.repr x.natAbs).toList
  String.mk ((if x < 0 then ['-'] else [])
    ++ List.replicate (width - digits.length) '0' ++ digits)

/-- Year and day of the year (from 0) of a day counted from January 1 of
year 1, by the 400/100/4/1-year cycles as `absDate` of package `time`. -/
def yearDay (d : Int) : Int × Nat :=
  let n400 := d / 146097
  let d1 := (d % 146097).toNat
  let n100 := d1 / 36524 - (d1 / 36524) / 4
  let d2 := d1 - 36524 * n100
  let n4 := d2 / 1461
  let d3 := d2 - 1461 * n4
  let n1 := d3 / 365 - (d3 / 365) / 4
  (400 * n400 + (100 * n100 + 4 * n4 + n1 : Nat) + 1, d3 - 365 * n1)

/-- Month (1 to 12) and day of the month of a day of the year, as `absDate`
of package `time`. -/
def monthDay (year : Int) (yday : Nat) : Nat × Nat :=
  if isLeap year ∧ yday = 31 + 29 - 1 then (2, 29)
  else
    let day := if isLeap year ∧ yday > 31 + 29 - 1 then yday - 1 else yday
    let month := day / 31
    let stop := daysBefore.getD (month + 1) 0
    if day ≥ stop then (month + 2, day - stop + 1)
    else (month + 1, day - daysBefore.getD month 0 + 1)

/-- Model of `Time.Format(time.RFC3339)`, layout
`2006-01-02T15:04:05Z07:00`. -/
def Time.formatRFC3339 (t : Time) : String :=
  let loc := t.unixSec + t.offset
  let yd := yearDay (loc / 86400 + unixEpochDays)
  let md := monthDay yd.1 yd.2
  let secs := (loc % 86400).toNat
  let zone := t.offset.tdiv 60
  appendInt yd.1 4 ++ "-" ++ appendInt md.1 2 ++ "-" ++ appendInt md.2 2 ++ "T"
    ++ appendInt (secs / 3600 : Nat) 2 ++ ":" ++ appendInt (secs % 3600 / 60 : Nat) 2 ++ ":"
    ++ appendInt (secs % 60 : Nat) 2
    ++ (if t.offset = 0 then "Z"
        else (if zone < 0 then "-" else "+")
          ++ appendInt (zone.natAbs / 60 : Nat) 2 ++ ":" ++ appendInt (zone.natAbs % 60 : Nat) 2)

/-- Model of `Time.Sub`: the difference in nanoseconds, saturated to the
range of `int64` (a `time.Duration`). -/
def Time.Sub (t u : Time) : Int :=
  let d := t.unixNano - u.unixNano
  if d < -(2 ^ 63) then -(2 ^ 63) else if 2 ^ 63 - 1 < d then 2 ^ 63 - 1 else d

/-! ## The gin request context -/

/-- The model `GithubEvent` (table `github_events`); `ID`, `CreatedAt` and
`UpdatedAt` are assigned by the store and are not set by the handlers. -/
structure GithubEvent where
  PusherName : String
  PusherEmail : String
  Payload : GoMap
  CommitAt : Time

/-- The reader `c.Request.Body`: it yields `data`, then end of input or a
read error. -/
inductive Body where
  | readable (data : Bytes)
  | failing (data : Bytes) (err : String)

/-- Model of `io.ReadAll`: the bytes read, the error if any, and the reader
as it is left (drained). -/
def ioReadAll : Body → (Bytes × Option String) × Body
  | .readable data => ((data, none), .readable [])
  | .failing data err => ((data, some err), .failing [] err)

/-- Gin's `responseWriter`: the status (200 until set), whether the header
has gone out, and the JSON values written to the body. -/
structure ResponseWriter where
  status : Nat
  written : Bool
  body : List JSON

/-- The request context `*gin.Context`, with the effect of the handlers on
the database (`submitted`: the events passed to `db.NewInsert().Exec`). -/
structure Context where
  requestBody : Body
  requestHeader : String → Bytes
  index : Int
  writer : ResponseWriter
  errors : List String
  submitted : List GithubEvent

/-- How a call returns: normally, by a panic, or not within the fuel of
the handler loop. -/
inductive Outcome where
  | returned (c : Context)
  | panicked (value : String) (c : Context)
  | exhausted

/-- A `gin.HandlerFunc`; the first argument is `c.Next`. -/
abbrev HandlerFunc := (Context → Outcome) → Context → Outcome

/-- Gin's `abortIndex`, `math.MaxInt8 >> 1`. -/
def abortIndex : Int := 63

/-- Model of `c.Abort()`. -/
def Context.Abort (c : Context) : Context := { c with index := abortIndex }

/-- Model of `c.IsAborted()`. -/
def Context.IsAborted (c : Context) : Bool := decide (c.index ≥ abortIndex)

/-- Model of `c.Status(code)`, that is `responseWriter.WriteHeader`: the
status changes only while the header has not gone out. -/
def Context.Status (code : Nat) (c : Context) : Context :=
  if code > 0 ∧ c.writer.status ≠ code then
    if c.writer.written then c
    else { c with writer := { c.writer with status := code } }
  else c

/-- Model of `c.Writer.WriteHeaderNow()`. -/
def Context.WriteHeaderNow (c : Context) : Context :=
  { c with writer := { c.writer with written := true } }

/-- Model of `c.JSON(code, obj)` for a status that allows a body: set the
status, send the header, write the value. -/
def Context.JSON (code : Nat) (obj : GoMap) (c : Context) : Context :=
  let c1 := (c.Status code).WriteHeaderNow
  { c1 with writer := { c1.writer with body := c1.writer.body ++ [JSON.obj obj] } }

/-- Model of `c.AbortWithStatusJSON(code, obj)`. -/
def Context.AbortWithStatusJSON (code : Nat) (obj : GoMap) (c : Context) : Context :=
  c.Abort.JSON code obj

/-- Model of `c.AbortWithError(code, err)`: `AbortWithStatus` then
`c.Error(err)`. -/
def Context.AbortWithError (code : Nat) (err : String) (c : Context) : Context :=
  let c1 := ((c.Status code).WriteHeaderNow).Abort
  { c1 with errors := c1.errors ++ [err] }

/-- Model of `c.GetHeader(key)`. -/
def Context.GetHeader (c : Context) (key : String) : Bytes := c.requestHeader key

/-- The loop of `c.Next()`: while `c.index < len(handlers)` run
`handlers[c.index]` and step the index.  A handler that calls `c.Next()`
runs the same loop one level down; `fuel` bounds calls and nesting. -/
def nextLoop (handlers : List HandlerFunc) : Nat → Context → Outcome
  | 0, c => if c.index < handlers.length then .exhausted else .returned c
  | fuel + 1, c =>
    if c.index < handlers.length then
      match (if c.index < 0 then none else handlers.get? c.index.toNat) with
      | none => .panicked "index out of range" c
      | some h =>
        match h (fun c1 => nextLoop handlers fuel { c1 with index := c1.index + 1 }) c with
        | .returned c2 => nextLoop handlers fuel { c2 with index := c2.index + 1 }
        | other => other
    else .returned c

/-- Model of `c.Next()` on a chain of handlers. -/
def Context.Next (handlers : List HandlerFunc) (c : Context) : Outcome :=
  nextLoop handlers handlers.length { c with index := c.index + 1 }

/-- A fresh context for a request, as gin's engine sets it up: index -1,
status 200, nothing written. -/
def newContext (body : Body) (header : String → Bytes) : Context :=
  { requestBody := body, requestHeader := header, index := -1,
    writer := { status := 200, written := false, body := [] },
    errors := [], submitted := [] }

/-! ## The handlers of `main.go` -/

/-- The signature the verifier expects:
`"sha256=" + hex.EncodeToString(mac.Sum(nil))`. -/
def expectedSig (hmacSha256 : Bytes → Bytes → Bytes) (githubSecret bodyBytes : Bytes) : Bytes :=
  strBytes "sha256=" ++ hexEncodeToString (hmacSha256 githubSecret bodyBytes)

/-- Embedding of `verifyGitHubSignature`.  `hmacSha256 key msg` is
HMAC-SHA256 and `githubSecret` the value of `GITHUB_WEBHOOK_SECRET`. -/
def verifyGitHubSignature (hmacSha256 : Bytes → Bytes → Bytes) (githubSecret : Bytes) :
    HandlerFunc := fun next c =>
  match ioReadAll c.requestBody with
  | ((_, some _), drained) =>
    .returned (Context.AbortWithStatusJSON 500 [("error", .str "failed to read body")]
      { c with requestBody := drained })
  | ((bodyBytes, none), _) =>
    let c1 := { c with requestBody := Body.readable bodyBytes }
    let signature := c1.GetHeader "X-Hub-Signature-256"
    if signature = [] then
      .returned (c1.AbortWithStatusJSON 401 [("error", .str "missing signature")])
    else
      if !hmacEqual (expectedSig hmacSha256 githubSecret bodyBytes) signature then
        .returned (c1.AbortWithStatusJSON 401 [("error", .str "invalid signature")])
      else next c1

/-- Embedding of `githubWebhookHandler`.  `decodeJSON` is the JSON decoder
behind `c.BindJSON` (its result and the reader as it leaves it), and
`parseLayout` the generic layout parser of `time.Parse`.  The result of the
insert is only printed, so it is not modelled. -/
def githubWebhookHandler (decodeJSON : Body → Except String GoMap × Body)
    (parseLayout : String → Except String Time) : HandlerFunc := fun _ c =>
  match decodeJSON c.requestBody with
  | (.error err, rest) =>
    let c1 := Context.AbortWithError 400 err { c with requestBody := rest }
    .returned (c1.JSON 400 [("error", .str err)])
  | (.ok data, rest) =>
    let c1 := { c with requestBody := rest }
    match data.lookup "pusher" with
    | some (.obj pusher) =>
      match pusher.lookup "email" with
      | some (.str pusherEmail) =>
        match pusher.lookup "name" with
        | some (.str pusherName) =>
          match data.lookup "head_commit" with
          | some (.obj head_commit) =>
            match head_commit.lookup "timestamp" with
            | some (.str timestamp) =>
              let t := (timeParse parseLayout timestamp).1
              let utc := t.UTC
              let github_event : GithubEvent :=
                { PusherName := pusherName, PusherEmail := pusherEmail,
                  Payload := data, CommitAt := utc }
              let c2 := { c1 with submitted := c1.submitted ++ [github_event] }
              .returned (c2.JSON 200 [("message", .str "cool")])
            | other =>
              .panicked ("interface conversion: interface {} is " ++ goTypeName other
                ++ ", not string") c1
          | _ => .returned c1
        | other =>
          .panicked ("interface conversion: interface {} is " ++ goTypeName other
            ++ ", not string") c1
      | other =>
        .panicked ("interface conversion: interface {} is " ++ goTypeName other
          ++ ", not string") c1
    | _ => .returned c1

/-- The chain of the route `POST /github`. -/
def githubRoute (hmacSha256 : Bytes → Bytes → Bytes) (githubSecret : Bytes)
    (decodeJSON : Body → Except String GoMap × Body)
    (parseLayout : String → Except String Time) : List HandlerFunc :=
  [verifyGitHubSignature hmacSha256 githubSecret, githubWebhookHandler decodeJSON parseLayout]

/-- The order `commit_at DESC` on rows. -/
def commitAtDesc (a b : GithubEvent) : Prop := b.CommitAt.unixNano ≤ a.CommitAt.unixNano

instance : DecidableRel commitAtDesc := fun a b =>
  inferInstanceAs (Decidable (b.CommitAt.unixNano ≤ a.CommitAt.unixNano))

instance commitAtDesc_total : IsTotal GithubEvent commitAtDesc :=
  ⟨fun a b => by unfold commitAtDesc; omega⟩

instance commitAtDesc_trans : IsTrans GithubEvent commitAtDesc :=
  ⟨fun a b c hab hbc => by unfold commitAtDesc at *; omega⟩

/-- Model of the query
`db.NewSelect().Model(githubEvent).Where("pusher_name = ?", name).Order("commit_at DESC").Scan(ctx)`
on the rows of `github_events`: the first row of the ordered result, or
`sql.ErrNoRows`.  Failures of the connection are not modelled. -/
def selectLastPush (rows : List GithubEvent) (name : String) : Except String GithubEvent :=
  match (rows.filter (fun e => e.PusherName == name)).insertionSort commitAtDesc with
  | [] => .error "sql: no rows in result set"
  | e :: _ => .ok e

/-- Embedding of `lastPushHandler`.  `rows` is the content of the store,
`name` the value of `MONITORED_USERNAME`, `now` the clock and `hours` the
conversion `Duration.Hours` to a `float64`. -/
def lastPushHandler (rows : List GithubEvent) (name : String) (now : Time)
    (hours : Int → Nat) : HandlerFunc := fun _ c =>
  match selectLastPush rows name with
  | .error err => .panicked err c
  | .ok githubEvent =>
    let old := now.UTC.Sub githubEvent.CommitAt
    .returned (c.JSON 200
      [("pusher_name", .str githubEvent.PusherName),
       ("pusher_email", .str githubEvent.PusherEmail),
       ("commit_at", .str githubEvent.CommitAt.formatRFC3339),
       ("old", .number (hours old))])

/-! ## Concrete inputs used to instantiate the theorems -/

/-- A stand-in for HMAC-SHA256 on concrete inputs: key then message. -/
def demoHmac (key msg : Bytes) : Bytes := key ++ msg

/-- A secret of one byte. -/
def demoSecret : Bytes := [7]

/-- A body of two bytes, `{}`. -/
def demoBody : Bytes := strBytes "{}"

/-- Headers holding only `X-Hub-Signature-256`, with the given value. -/
def headerWith (signature : Bytes) (key : String) : Bytes :=
  if key = "X-Hub-Signature-256" then signature else []

/-- The signature of `demoBody` under `demoSecret`, `sha256=077b7d`. -/
def demoSig : Bytes := expectedSig demoHmac demoSecret demoBody

/-- The signature `demoSig` with its last byte changed, `sha256=077b7e`. -/
def demoSigFlipped : Bytes := strBytes "sha256=077b7e"

/-- A signature of the same length that is wrong from the first byte. -/
def demoSigWrong : Bytes := strBytes "XXXXXXXXXXXXX"

/-- A JSON decoder that yields the given object and leaves the reader
drained. -/
def decodeTo (data : GoMap) : Body → Except String GoMap × Body :=
  fun _ => (.ok data, .readable [])

/-- A JSON decoder that fails with the given message. -/
def decodeFail (err : String) : Body → Except String GoMap × Body :=
  fun _ => (.error err, .readable [])

/-- A generic layout parser that rejects its input. -/
def noLayout : String → Except String Time :=
  fun _ => .error "cannot parse as RFC3339"

/-- The payload
`{"pusher":{"name":"alice","email":"a@x.com"},"head_commit":{"timestamp":"2024-01-01T00:00:00Z"}}`. -/
def alicePayload : GoMap :=
  [("pusher", .obj [("name", .str "alice"), ("email", .str "a@x.com")]),
   ("head_commit", .obj [("timestamp", .str "2024-01-01T00:00:00Z")])]

/-- The payload of `alicePayload` with the timestamp `yesterday`. -/
def badTimePayload : GoMap :=
  [("pusher", .obj [("name", .str "alice"), ("email", .str "a@x.com")]),
   ("head_commit", .obj [("timestamp", .str "yesterday")])]

/-- The payload of `alicePayload` without `pusher.email`. -/
def noEmailPayload : GoMap :=
  [("pusher", .obj [("name", .str "alice")]),
   ("head_commit", .obj [("timestamp", .str "2024-01-01T00:00:00Z")])]

/-- The payload of `alicePayload` with an empty `pusher.name`. -/
def emptyNamePayload : GoMap :=
  [("pusher", .obj [("name", .str ""), ("email", .str "a@x.com")]),
   ("head_commit", .obj [("timestamp", .str "2024-01-01T00:00:00Z")])]

/-- A fresh context whose body is `demoBody`, correctly signed. -/
def demoContext : Context := newContext (Body.readable demoBody) (headerWith demoSig)

/-- Two rows of `alice`, the second with the later commit, and one later row
of `bob`. -/
def demoRows : List GithubEvent :=
  [{ PusherName := "alice", PusherEmail := "a@x.com", Payload := [],
     CommitAt := ⟨1704067200, 0, 0⟩ },
   { PusherName := "alice", PusherEmail := "alice@y.org", Payload := [],
     CommitAt := ⟨1704153600, 0, 0⟩ },
   { PusherName := "bob", PusherEmail := "b@x.com", Payload := [],
     CommitAt := ⟨1704240000, 0, 0⟩ }]

/-- A stand-in for the conversion of a duration to hours. -/
def demoHours (d : Int) : Nat := (d / 3600000000000).toNat

/-! ## Lemmas on the library models -/

theorem or_xor_eq_zero {v a b : Nat} (h : v ||| (a ^^^ b) = 0) : v = 0 ∧ a = b := by
  have hbit : ∀ i, v.testBit i = false ∧ (a ^^^ b).testBit i = false := by
    intro i
    have hi := congrArg (fun n => n.testBit i) h
    simpa [Nat.testBit_or] using hi
  have hv : v = 0 := Nat.eq_of_testBit_eq (fun i => by simp [(hbit i).1])
  have hx : a ^^^ b = 0 := Nat.eq_of_testBit_eq (fun i => by simp [(hbit i).2])
  exact ⟨hv, Nat.xor_eq_zero.mp hx⟩

theorem or_xor_lt {v : Nat} (a b : Byte) (hv : v < 256) : v ||| (a.val ^^^ b.val) < 256 := by
  have ha : a.val < 2 ^ 8 := a.isLt
  have hb : b.val < 2 ^ 8 := b.isLt
  exact Nat.or_lt_two_pow (n := 8) hv (Nat.xor_lt_two_pow ha hb)

theorem constantTimeLoop_fst_lt (x y : Bytes) (i v : Nat) (visited : List Nat) (hv : v < 256) :
    (constantTimeLoop x y i v visited).1 < 256 := by
  induction x generalizing y i v visited with
  | nil => simpa [constantTimeLoop] using hv
  | cons a x ih =>
    cases y with
    | nil => simpa [constantTimeLoop] using hv
    | cons b y =>
      simp only [constantTimeLoop]
      exact ih y _ _ _ (Nat.mod_lt _ (by norm_num))

theorem constantTimeLoop_fst_eq_zero (x y : Bytes) (i v : Nat) (visited : List Nat)
    (hv : v < 256) (hlen : x.length = y.length) :
    (constantTimeLoop x y i v visited).1 = 0 ↔ v = 0 ∧ x = y := by
  induction x generalizing y i v visited with
  | nil =>
    cases y with
    | nil => simp [constantTimeLoop]
    | cons b y => simp at hlen
  | cons a x ih =>
    cases y with
    | nil => simp at hlen
    | cons b y =>
      simp only [List.length_cons, Nat.add_right_cancel_iff] at hlen
      simp only [constantTimeLoop]
      have hlt := or_xor_lt a b hv
      rw [ih y _ _ _ (Nat.mod_lt _ (by norm_num)) hlen, Nat.mod_eq_of_lt hlt]
      constructor
      · rintro ⟨h0, rfl⟩
        obtain ⟨hv0, hab⟩ := or_xor_eq_zero h0
        exact ⟨hv0, by rw [Fin.ext hab]⟩
      · rintro ⟨rfl, h⟩
        injection h with hab hxy
        subst hab hxy
        simp

theorem constantTimeByteEq_zero {v : Nat} (hv : v < 256) :
    constantTimeByteEq v 0 = 1 ↔ v = 0 := by
  unfold constantTimeByteEq
  rw [Nat.xor_zero, Nat.shiftRight_eq_div_pow]
  constructor
  · intro h
    by_contra hne
    have : (v % 2 ^ 32 + 2 ^ 32 - 1) % 2 ^ 32 = v - 1 := by omega
    rw [this] at h
    omega
  · rintro rfl
    norm_num

/-- The comparison `hmac.Equal` is equality of the byte strings. -/
theorem hmacEqual_iff (x y : Bytes) : hmacEqual x y = true ↔ x = y := by
  unfold hmacEqual constantTimeCompare constantTimeCompareTrace
  by_cases hlen : x.length = y.length
  · simp only [hlen, ne_eq, not_true_eq_false, if_false, beq_iff_eq]
    rw [constantTimeByteEq_zero (constantTimeLoop_fst_lt x y 0 0 [] (by norm_num)),
      constantTimeLoop_fst_eq_zero x y 0 0 [] (by norm_num) hlen]
    simp
  · simp only [ne_eq, hlen, not_false_eq_true, if_true, beq_iff_eq]
    constructor
    · intro h; omega
    · rintro rfl; exact absurd rfl hlen

theorem expectedSig_ne_nil (hmacSha256 : Bytes → Bytes → Bytes) (S B : Bytes) :
    expectedSig hmacSha256 S B ≠ [] := by
  unfold expectedSig strBytes
  simp [String.toList]

theorem constantTimeLoop_snd (x y : Bytes) (i v : Nat) (visited : List Nat) :
    (constantTimeLoop x y i v visited).2 = visited ++ List.range' i (min x.length y.length) := by
  induction x generalizing y i v visited with
  | nil => simp [constantTimeLoop]
  | cons a x ih =>
    cases y with
    | nil => simp [constantTimeLoop]
    | cons b y =>
      simp only [constantTimeLoop, List.length_cons]
      rw [ih, Nat.succ_min_succ, List.range'_succ]
      simp

/-! ## The signature verifier -/

/-- C1: when the body is read successfully as `B` and the header
`X-Hub-Signature-256` equals `"sha256="` followed by the hex encoding of
HMAC-SHA256(S, B), `verifyGitHubSignature` does not abort: it calls the next
handler on the context it was given, untouched except that the request body
is again readable and equal to `B`. -/
theorem verifyGitHubSignature_accepts (hmacSha256 : Bytes → Bytes → Bytes) (S B : Bytes)
    (next : Context → Outcome) (c : Context)
    (hbody : c.requestBody = Body.readable B)
    (hsig : c.GetHeader "X-Hub-Signature-256" = expectedSig hmacSha256 S B) :
    verifyGitHubSignature hmacSha256 S next c
      = next { c with requestBody := Body.readable B } := by
  have hne := expectedSig_ne_nil hmacSha256 S B
  have heq : hmacEqual (expectedSig hmacSha256 S B) (expectedSig hmacSha256 S B) = true :=
    (hmacEqual_iff _ _).mpr rfl
  simp only [Context.GetHeader] at hsig
  simp [verifyGitHubSignature, hbody, ioReadAll, Context.GetHeader, hsig, hne, heq]

theorem verifyGitHubSignature_accepts_witness :
    (newContext (Body.readable demoBody) (headerWith demoSig)).requestBody
        = Body.readable demoBody
      ∧ (newContext (Body.readable demoBody) (headerWith demoSig)).GetHeader
          "X-Hub-Signature-256" = expectedSig demoHmac demoSecret demoBody
      ∧ verifyGitHubSignature demoHmac demoSecret Outcome.returned
          (newContext (Body.readable demoBody) (headerWith demoSig))
        = Outcome.returned { newContext (Body.readable demoBody) (headerWith demoSig) with
            requestBody := Body.readable demoBody } :=
  ⟨rfl, rfl, verifyGitHubSignature_accepts demoHmac demoSecret demoBody Outcome.returned
    (newContext (Body.readable demoBody) (headerWith demoSig)) rfl rfl⟩

/-- C2: when the body is read as `B` and the header `X-Hub-Signature-256`
is absent, empty or differs from `"sha256=" + hex(HMAC-SHA256(S, B))` in any
way, the chain of `verifyGitHubSignature` followed by any handler `h` (in
particular `githubWebhookHandler`) ends with status 401, a JSON `error`
body, the chain aborted and no Event submitted: the outcome does not depend
on `h`, which is not run. -/
theorem verifyGitHubSignature_rejects (hmacSha256 : Bytes → Bytes → Bytes) (S B : Bytes)
    (header : String → Bytes)
    (hsig : header "X-Hub-Signature-256" ≠ expectedSig hmacSha256 S B) :
    ∃ msg, (∀ h : HandlerFunc,
        Context.Next [verifyGitHubSignature hmacSha256 S, h]
            (newContext (Body.readable B) header)
          = Outcome.returned
              { requestBody := Body.readable B, requestHeader := header,
                index := abortIndex + 1,
                writer := { status := 401, written := true,
                            body := [JSON.obj [("error", JSON.str msg)]] },
                errors := [], submitted := [] })
      ∧ (∀ decodeJSON parseLayout,
        Context.Next (githubRoute hmacSha256 S decodeJSON parseLayout)
            (newContext (Body.readable B) header)
          = Outcome.returned
              { requestBody := Body.readable B, requestHeader := header,
                index := abortIndex + 1,
                writer := { status := 401, written := true,
                            body := [JSON.obj [("error", JSON.str msg)]] },
                errors := [], submitted := [] }) := by
  have hne : hmacEqual (expectedSig hmacSha256 S B) (header "X-Hub-Signature-256") = false := by
    rw [Bool.eq_false_iff]
    intro h
    exact hsig ((hmacEqual_iff _ _).mp h).symm
  by_cases hempty : header "X-Hub-Signature-256" = []
  · refine ⟨"missing signature", fun h => ?_, fun d p => ?_⟩ <;>
      simp [githubRoute, Context.Next, nextLoop, newContext, verifyGitHubSignature, ioReadAll,
        Context.GetHeader, hempty, Context.AbortWithStatusJSON, Context.Abort, Context.JSON,
        Context.Status, Context.WriteHeaderNow, abortIndex]
  · refine ⟨"invalid signature", fun h => ?_, fun d p => ?_⟩ <;>
      simp [githubRoute, Context.Next, nextLoop, newContext, verifyGitHubSignature, ioReadAll,
        Context.GetHeader, hempty, hne, Context.AbortWithStatusJSON, Context.Abort,
        Context.JSON, Context.Status, Context.WriteHeaderNow, abortIndex]

theorem verifyGitHubSignature_rejects_witness :
    headerWith demoSigFlipped "X-Hub-Signature-256" ≠ expectedSig demoHmac demoSecret demoBody
      ∧ ∃ msg, (∀ h : HandlerFunc,
        Context.Next [verifyGitHubSignature demoHmac demoSecret, h]
            (newContext (Body.readable demoBody) (headerWith demoSigFlipped))
          = Outcome.returned
              { requestBody := Body.readable demoBody,
                requestHeader := headerWith demoSigFlipped,
                index := abortIndex + 1,
                writer := { status := 401, written := true,
                            body := [JSON.obj [("error", JSON.str msg)]] },
                errors := [], submitted := [] })
      ∧ (∀ decodeJSON parseLayout,
        Context.Next (githubRoute demoHmac demoSecret decodeJSON parseLayout)
            (newContext (Body.readable demoBody) (headerWith demoSigFlipped))
          = Outcome.returned
              { requestBody := Body.readable demoBody,
                requestHeader := headerWith demoSigFlipped,
                index := abortIndex + 1,
                writer := { status := 401, written := true,
                            body := [JSON.obj [("error", JSON.str msg)]] },
                errors := [], submitted := [] }) :=
  ⟨by decide, verifyGitHubSignature_rejects demoHmac demoSecret demoBody
    (headerWith demoSigFlipped) (by decide)⟩

/-- C10: for a fixed body and secret, the comparison made by
`verifyGitHubSignature` visits the same indices for any two supplied
signatures of the same length, whatever their content, and for a signature as
long as the expected one it visits every index: there is no early exit at the
first differing byte. -/
theorem constantTimeCompare_trace_invariant (hmacSha256 : Bytes → Bytes → Bytes)
    (S B sig1 sig2 : Bytes) (hlen : sig1.length = sig2.length) :
    (constantTimeCompareTrace (expectedSig hmacSha256 S B) sig1).2
        = (constantTimeCompareTrace (expectedSig hmacSha256 S B) sig2).2
      ∧ (sig1.length = (expectedSig hmacSha256 S B).length →
          (constantTimeCompareTrace (expectedSig hmacSha256 S B) sig1).2
            = List.range (expectedSig hmacSha256 S B).length) := by
  constructor
  · unfold constantTimeCompareTrace
    by_cases h : (expectedSig hmacSha256 S B).length = sig1.length
    · have h2 : (expectedSig hmacSha256 S B).length = sig2.length := h.trans hlen
      simp [h, constantTimeLoop_snd, ← h2]
    · have h2 : ¬ (expectedSig hmacSha256 S B).length = sig2.length := fun e => h (e.trans hlen.symm)
      simp [h, h2]
  · intro h
    unfold constantTimeCompareTrace
    simp [h, constantTimeLoop_snd, List.range_eq_range']

theorem constantTimeCompare_trace_invariant_witness :
    demoSigFlipped.length = demoSigWrong.length
      ∧ (constantTimeCompareTrace (expectedSig demoHmac demoSecret demoBody) demoSigFlipped).2
        = (constantTimeCompareTrace (expectedSig demoHmac demoSecret demoBody) demoSigWrong).2
      ∧ (demoSigFlipped.length = (expectedSig demoHmac demoSecret demoBody).length →
          (constantTimeCompareTrace (expectedSig demoHmac demoSecret demoBody) demoSigFlipped).2
            = List.range (expectedSig demoHmac demoSecret demoBody).length) :=
  ⟨by decide, constantTimeCompare_trace_invariant demoHmac demoSecret demoBody
    demoSigFlipped demoSigWrong (by decide)⟩

/-! ## The event ingestor -/

theorem timeParse_error (parseLayout : String → Except String Time) (value err : String)
    (h : (timeParse parseLayout value).2 = some err) :
    (timeParse parseLayout value).1 = Time.zero := by
  unfold timeParse at h ⊢
  cases hp : parseRFC3339 value with
  | some t => simp [hp] at h
  | none =>
    cases hl : parseLayout value with
    | ok t => simp [hp, hl] at h
    | error e => simp

/-- C3: for a decoded payload whose `pusher` is an object with string `name`
and `email` and whose `head_commit` is an object with a string `timestamp`
that `time.Parse` accepts as RFC3339 (as the time `t`), `githubWebhookHandler` submits
exactly one Event: `pusher_name` and `pusher_email` from `pusher`, the whole
decoded payload, and `commit_at` the instant of `t` at offset zero; it then
answers 200 `{"message": "cool"}`. -/
theorem githubWebhookHandler_inserts (decodeJSON : Body → Except String GoMap × Body)
    (parseLayout : String → Except String Time) (next : Context → Outcome) (c : Context)
    (data pusher head_commit : GoMap) (rest : Body) (name email timestamp : String) (t : Time)
    (hdec : decodeJSON c.requestBody = (.ok data, rest))
    (hp : data.lookup "pusher" = some (.obj pusher))
    (hn : pusher.lookup "name" = some (.str name))
    (he : pusher.lookup "email" = some (.str email))
    (hh : data.lookup "head_commit" = some (.obj head_commit))
    (ht : head_commit.lookup "timestamp" = some (.str timestamp))
    (hparse : timeParse parseLayout timestamp = (t, none)) :
    githubWebhookHandler decodeJSON parseLayout next c
      = Outcome.returned (Context.JSON 200 [("message", .str "cool")]
          { c with
            requestBody := rest,
            submitted := c.submitted ++
              [{ PusherName := name, PusherEmail := email, Payload := data,
                 CommitAt := { unixSec := t.unixSec, nsec := t.nsec, offset := 0 } }] }) := by
  simp [githubWebhookHandler, hdec, hp, hn, he, hh, ht, hparse, Time.UTC]

theorem githubWebhookHandler_inserts_witness :
    decodeTo alicePayload demoContext.requestBody = (.ok alicePayload, Body.readable [])
      ∧ alicePayload.lookup "pusher"
          = some (.obj [("name", .str "alice"), ("email", .str "a@x.com")])
      ∧ List.lookup "name" [("name", JSON.str "alice"), ("email", JSON.str "a@x.com")]
          = some (.str "alice")
      ∧ List.lookup "email" [("name", JSON.str "alice"), ("email", JSON.str "a@x.com")]
          = some (.str "a@x.com")
      ∧ alicePayload.lookup "head_commit"
          = some (.obj [("timestamp", .str "2024-01-01T00:00:00Z")])
      ∧ List.lookup "timestamp" [("timestamp", JSON.str "2024-01-01T00:00:00Z")]
          = some (.str "2024-01-01T00:00:00Z")
      ∧ timeParse noLayout "2024-01-01T00:00:00Z" = (⟨1704067200, 0, 0⟩, none)
      ∧ githubWebhookHandler (decodeTo alicePayload) noLayout Outcome.returned demoContext
        = Outcome.returned (Context.JSON 200 [("message", .str "cool")]
            { demoContext with
              requestBody := Body.readable [],
              submitted := demoContext.submitted ++
                [{ PusherName := "alice", PusherEmail := "a@x.com", Payload := alicePayload,
                   CommitAt := { unixSec := 1704067200, nsec := 0, offset := 0 } }] }) :=
  ⟨rfl, rfl, rfl, rfl, rfl, rfl, by decide,
    githubWebhookHandler_inserts (decodeTo alicePayload) noLayout Outcome.returned demoContext
      alicePayload [("name", .str "alice"), ("email", .str "a@x.com")]
      [("timestamp", .str "2024-01-01T00:00:00Z")] (Body.readable []) "alice" "a@x.com"
      "2024-01-01T00:00:00Z" ⟨1704067200, 0, 0⟩ rfl rfl rfl rfl rfl rfl (by decide)⟩

/-- C7: for a decoded payload with a well-formed `pusher` object and a
`head_commit` object whose string `timestamp` `time.Parse` rejects,
`githubWebhookHandler` does not abort: it submits exactly one Event with
`commit_at` the zero time and the pusher fields and payload of the request,
and answers 200 `{"message": "cool"}`. -/
theorem githubWebhookHandler_bad_timestamp (decodeJSON : Body → Except String GoMap × Body)
    (parseLayout : String → Except String Time) (next : Context → Outcome) (c : Context)
    (data pusher head_commit : GoMap) (rest : Body) (name email timestamp err : String)
    (hdec : decodeJSON c.requestBody = (.ok data, rest))
    (hp : data.lookup "pusher" = some (.obj pusher))
    (hn : pusher.lookup "name" = some (.str name))
    (he : pusher.lookup "email" = some (.str email))
    (hh : data.lookup "head_commit" = some (.obj head_commit))
    (ht : head_commit.lookup "timestamp" = some (.str timestamp))
    (hparse : (timeParse parseLayout timestamp).2 = some err) :
    githubWebhookHandler decodeJSON parseLayout next c
      = Outcome.returned (Context.JSON 200 [("message", .str "cool")]
          { c with
            requestBody := rest,
            submitted := c.submitted ++
              [{ PusherName := name, PusherEmail := email, Payload := data,
                 CommitAt := Time.zero }] }) := by
  have hz := timeParse_error parseLayout timestamp err hparse
  simp [githubWebhookHandler, hdec, hp, hn, he, hh, ht, hz, Time.UTC, Time.zero]

theorem githubWebhookHandler_bad_timestamp_witness :
    decodeTo badTimePayload demoContext.requestBody = (.ok badTimePayload, Body.readable [])
      ∧ badTimePayload.lookup "pusher"
          = some (.obj [("name", .str "alice"), ("email", .str "a@x.com")])
      ∧ List.lookup "name" [("name", JSON.str "alice"), ("email", JSON.str "a@x.com")]
          = some (.str "alice")
      ∧ List.lookup "email" [("name", JSON.str "alice"), ("email", JSON.str "a@x.com")]
          = some (.str "a@x.com")
      ∧ badTimePayload.lookup "head_commit" = some (.obj [("timestamp", .str "yesterday")])
      ∧ List.lookup "timestamp" [("timestamp", JSON.str "yesterday")]
          = some (.str "yesterday")
      ∧ (timeParse noLayout "yesterday").2 = some "cannot parse as RFC3339"
      ∧ githubWebhookHandler (decodeTo badTimePayload) noLayout Outcome.returned demoContext
        = Outcome.returned (Context.JSON 200 [("message", .str "cool")]
            { demoContext with
              requestBody := Body.readable [],
              submitted := demoContext.submitted ++
                [{ PusherName := "alice", PusherEmail := "a@x.com", Payload := badTimePayload,
                   CommitAt := Time.zero }] }) :=
  ⟨rfl, rfl, rfl, rfl, rfl, rfl, by decide,
    githubWebhookHandler_bad_timestamp (decodeTo badTimePayload) noLayout Outcome.returned
      demoContext badTimePayload [("name", .str "alice"), ("email", .str "a@x.com")]
      [("timestamp", .str "yesterday")] (Body.readable []) "alice" "a@x.com" "yesterday"
      "cannot parse as RFC3339" rfl rfl rfl rfl rfl rfl (by decide)⟩

/-- C5: when the request body cannot be decoded as a JSON object (the
decoder fails with `err`) and no response has been sent yet,
`githubWebhookHandler` answers with status 400 and the JSON object
`{"error": err}`, aborts, and submits no Event. -/
theorem githubWebhookHandler_malformed (decodeJSON : Body → Except String GoMap × Body)
    (parseLayout : String → Except String Time) (next : Context → Outcome) (c : Context)
    (rest : Body) (err : String)
    (hdec : decodeJSON c.requestBody = (.error err, rest))
    (hw : c.writer.written = false) :
    ∃ c', githubWebhookHandler decodeJSON parseLayout next c = Outcome.returned c'
      ∧ c'.writer.status = 400
      ∧ c'.writer.body = c.writer.body ++ [JSON.obj [("error", .str err)]]
      ∧ c'.IsAborted = true
      ∧ c'.submitted = c.submitted := by
  refine ⟨_, by simp only [githubWebhookHandler, hdec]; rfl, ?_, ?_, ?_, ?_⟩
  · by_cases hs : c.writer.status = 400 <;>
      simp [Context.JSON, Context.AbortWithError, Context.Status, Context.WriteHeaderNow,
        Context.Abort, hw, hs]
  · by_cases hs : c.writer.status = 400 <;>
      simp [Context.JSON, Context.AbortWithError, Context.Status, Context.WriteHeaderNow,
        Context.Abort, hw, hs]
  · by_cases hs : c.writer.status = 400 <;>
      simp [Context.JSON, Context.AbortWithError, Context.Status, Context.WriteHeaderNow,
        Context.Abort, Context.IsAborted, hw, hs]
  · by_cases hs : c.writer.status = 400 <;>
      simp [Context.JSON, Context.AbortWithError, Context.Status, Context.WriteHeaderNow,
        Context.Abort, hw, hs]

theorem githubWebhookHandler_malformed_witness :
    decodeFail "unexpected EOF" demoContext.requestBody
        = (.error "unexpected EOF", Body.readable [])
      ∧ demoContext.writer.written = false
      ∧ ∃ c', githubWebhookHandler (decodeFail "unexpected EOF") noLayout Outcome.returned
            demoContext = Outcome.returned c'
        ∧ c'.writer.status = 400
        ∧ c'.writer.body = demoContext.writer.body ++ [JSON.obj [("error", .str "unexpected EOF")]]
        ∧ c'.IsAborted = true
        ∧ c'.submitted = demoContext.submitted :=
  ⟨rfl, rfl, githubWebhookHandler_malformed (decodeFail "unexpected EOF") noLayout
    Outcome.returned demoContext (Body.readable []) "unexpected EOF" rfl rfl⟩

/-- C4, as stated, fails: for the payload `{}` (no `pusher` key) the handler
returns without writing anything, so the response body is empty and is not
`{"message": "cool"}`. -/
theorem githubWebhookHandler_soft_failure_silent :
    githubWebhookHandler (decodeTo []) noLayout Outcome.returned demoContext
        = Outcome.returned { demoContext with requestBody := Body.readable [] }
      ∧ ({ demoContext with requestBody := Body.readable [] } : Context).writer.body = []
      ∧ ({ demoContext with requestBody := Body.readable [] } : Context).writer.body
          ≠ [JSON.obj [("message", .str "cool")]] := by
  refine ⟨rfl, rfl, ?_⟩
  simp [demoContext, newContext]

/-- C4, amended: for a decoded payload whose `pusher` is absent or not an
object, or whose `pusher` is an object with string `email` and `name` and
whose `head_commit` is absent or not an object, `githubWebhookHandler`
returns normally, submits no Event and writes no response: status and body
are as it found them (200 and empty for a fresh request). -/
theorem githubWebhookHandler_soft_failure (decodeJSON : Body → Except String GoMap × Body)
    (parseLayout : String → Except String Time) (next : Context → Outcome) (c : Context)
    (data : GoMap) (rest : Body)
    (hdec : decodeJSON c.requestBody = (.ok data, rest))
    (hcase : (∀ pusher, data.lookup "pusher" ≠ some (.obj pusher))
      ∨ (∃ pusher name email, data.lookup "pusher" = some (.obj pusher)
          ∧ pusher.lookup "name" = some (.str name)
          ∧ pusher.lookup "email" = some (.str email)
          ∧ ∀ head_commit, data.lookup "head_commit" ≠ some (.obj head_commit))) :
    githubWebhookHandler decodeJSON parseLayout next c
      = Outcome.returned { c with requestBody := rest } := by
  rcases hcase with hno | ⟨pusher, name, email, hp, hn, he, hno⟩
  · simp only [githubWebhookHandler, hdec]
  · simp only [githubWebhookHandler, hdec, hp, hn, he]

theorem githubWebhookHandler_soft_failure_witness :
    decodeTo [] demoContext.requestBody = (.ok [], Body.readable [])
      ∧ ((∀ pusher, List.lookup "pusher" ([] : GoMap) ≠ some (.obj pusher))
        ∨ (∃ pusher name email, List.lookup "pusher" ([] : GoMap) = some (.obj pusher)
            ∧ pusher.lookup "name" = some (.str name)
            ∧ pusher.lookup "email" = some (.str email)
            ∧ ∀ head_commit, List.lookup "head_commit" ([] : GoMap) ≠ some (.obj head_commit)))
      ∧ githubWebhookHandler (decodeTo []) noLayout Outcome.returned demoContext
        = Outcome.returned { demoContext with requestBody := Body.readable [] } :=
  ⟨rfl, Or.inl (fun _ h => by simp at h),
    githubWebhookHandler_soft_failure (decodeTo []) noLayout Outcome.returned demoContext []
      (Body.readable []) rfl (Or.inl (fun _ h => by simp at h))⟩

/-- C8, the code at the failing input: for a payload whose `pusher` object
has no `email`, the unchecked assertion `pusher["email"].(string)` panics;
the handler does not complete normally. -/
theorem githubWebhookHandler_missing_email_panics :
    githubWebhookHandler (decodeTo noEmailPayload) noLayout Outcome.returned demoContext
      = Outcome.panicked "interface conversion: interface {} is nil, not string"
          { demoContext with requestBody := Body.readable [] } := by
  rfl

/-- C9, as stated, fails: for a payload whose `pusher.name` is the empty
string the handler submits an Event whose `pusher_name` is empty. -/
theorem githubWebhookHandler_empty_name :
    githubWebhookHandler (decodeTo emptyNamePayload) noLayout Outcome.returned demoContext
        = Outcome.returned (Context.JSON 200 [("message", .str "cool")]
            { demoContext with
              requestBody := Body.readable [],
              submitted :=
                [{ PusherName := "", PusherEmail := "a@x.com", Payload := emptyNamePayload,
                   CommitAt := { unixSec := 1704067200, nsec := 0, offset := 0 } }] })
      ∧ (Context.JSON 200 [("message", .str "cool")]
            { demoContext with
              requestBody := Body.readable [],
              submitted :=
                [{ PusherName := "", PusherEmail := "a@x.com", Payload := emptyNamePayload,
                   CommitAt := { unixSec := 1704067200, nsec := 0, offset := 0 } }] }).submitted.map
          (fun e => e.PusherName) = [""] := by
  have hparse : parseRFC3339 "2024-01-01T00:00:00Z" = some ⟨1704067200, 0, 0⟩ := by decide
  refine ⟨?_, rfl⟩
  simp [githubWebhookHandler, decodeTo, emptyNamePayload, List.lookup, timeParse, hparse,
    Time.UTC, demoContext, newContext]

/-- C9, amended: whenever `githubWebhookHandler` returns normally, either no
Event is submitted, or exactly one is and its `pusher_name` is the string
`pusher.name` of the decoded payload (so it is non-empty exactly when that
string is). -/
theorem githubWebhookHandler_pusher_name (decodeJSON : Body → Except String GoMap × Body)
    (parseLayout : String → Except String Time) (next : Context → Outcome) (c c' : Context)
    (h : githubWebhookHandler decodeJSON parseLayout next c = Outcome.returned c') :
    c'.submitted = c.submitted
      ∨ ∃ data rest pusher name ev, decodeJSON c.requestBody = (.ok data, rest)
          ∧ data.lookup "pusher" = some (.obj pusher)
          ∧ pusher.lookup "name" = some (.str name)
          ∧ c'.submitted = c.submitted ++ [ev]
          ∧ ev.PusherName = name
          ∧ (ev.PusherName ≠ "" ↔ name ≠ "") := by
  unfold githubWebhookHandler at h
  split at h
  · injection h with h
    subst h
    left
    simp [Context.JSON, Context.AbortWithError, Context.Status, Context.WriteHeaderNow,
      Context.Abort]
    split <;> (try split) <;> rfl
  · rename_i data rest hdec
    split at h
    · rename_i pusher hp
      split at h
      · rename_i email he
        split at h
        · rename_i name hn
          split at h
          · split at h
            · rename_i timestamp ht
              injection h with h
              subst h
              right
              refine ⟨data, rest, pusher, name,
                { PusherName := name, PusherEmail := email, Payload := data,
                  CommitAt := (timeParse parseLayout timestamp).1.UTC },
                hdec, hp, hn, ?_, rfl, Iff.rfl⟩
              simp [Context.JSON, Context.Status, Context.WriteHeaderNow]
              split <;> (try split) <;> rfl
            · cases h
          · injection h with h
            subst h
            left
            rfl
        · cases h
      · cases h
    · injection h with h
      subst h
      left
      rfl

theorem githubWebhookHandler_pusher_name_witness :
    githubWebhookHandler (decodeTo alicePayload) noLayout Outcome.returned demoContext
        = Outcome.returned (Context.JSON 200 [("message", .str "cool")]
            { demoContext with
              requestBody := Body.readable [],
              submitted :=
                [{ PusherName := "alice", PusherEmail := "a@x.com", Payload := alicePayload,
                   CommitAt := { unixSec := 1704067200, nsec := 0, offset := 0 } }] })
      ∧ ((Context.JSON 200 [("message", .str "cool")]
            { demoContext with
              requestBody := Body.readable [],
              submitted :=
                [{ PusherName := "alice", PusherEmail := "a@x.com", Payload := alicePayload,
                   CommitAt := { unixSec := 1704067200, nsec := 0, offset := 0 } }] }).submitted
          = demoContext.submitted
        ∨ ∃ data rest pusher name ev,
            decodeTo alicePayload demoContext.requestBody = (.ok data, rest)
            ∧ data.lookup "pusher" = some (.obj pusher)
            ∧ pusher.lookup "name" = some (.str name)
            ∧ (Context.JSON 200 [("message", .str "cool")]
                { demoContext with
                  requestBody := Body.readable [],
                  submitted :=
                    [{ PusherName := "alice", PusherEmail := "a@x.com", Payload := alicePayload,
                       CommitAt := { unixSec := 1704067200, nsec := 0, offset := 0 } }] }).submitted
              = demoContext.submitted ++ [ev]
            ∧ ev.PusherName = name
            ∧ (ev.PusherName ≠ "" ↔ name ≠ "")) :=
  have hparse : parseRFC3339 "2024-01-01T00:00:00Z" = some ⟨1704067200, 0, 0⟩ := by decide
  have hrun : githubWebhookHandler (decodeTo alicePayload) noLayout Outcome.returned demoContext
        = Outcome.returned (Context.JSON 200 [("message", .str "cool")]
            { demoContext with
              requestBody := Body.readable [],
              submitted :=
                [{ PusherName := "alice", PusherEmail := "a@x.com", Payload := alicePayload,
                   CommitAt := { unixSec := 1704067200, nsec := 0, offset := 0 } }] }) := by
    simp [githubWebhookHandler, decodeTo, alicePayload, List.lookup, timeParse, hparse,
      Time.UTC, demoContext, newContext]
  ⟨hrun, githubWebhookHandler_pusher_name (decodeTo alicePayload) noLayout Outcome.returned
    demoContext _ hrun⟩

/-! ## The last-push reporter -/

/-- The query returns a row of the monitored pusher whose commit time is
greatest among the rows of that pusher. -/
theorem selectLastPush_spec (rows : List GithubEvent) (name : String)
    (hex : ∃ e ∈ rows, e.PusherName = name) :
    ∃ e ∈ rows, e.PusherName = name
      ∧ (∀ e' ∈ rows, e'.PusherName = name → e'.CommitAt.unixNano ≤ e.CommitAt.unixNano)
      ∧ selectLastPush rows name = .ok e := by
  obtain ⟨e0, he0, hn0⟩ := hex
  have hmem : ∀ x, x ∈ (rows.filter (fun e => e.PusherName == name)).insertionSort commitAtDesc
      ↔ x ∈ rows ∧ x.PusherName = name := by
    intro x
    rw [List.mem_insertionSort, List.mem_filter]
    simp
  have hsorted := List.sorted_insertionSort commitAtDesc
    (rows.filter (fun e => e.PusherName == name))
  unfold selectLastPush
  cases hs : (rows.filter (fun e => e.PusherName == name)).insertionSort commitAtDesc with
  | nil =>
    have := (hmem e0).mpr ⟨he0, hn0⟩
    rw [hs] at this
    simp at this
  | cons e tl =>
    have he := (hmem e).mp (by rw [hs]; simp)
    refine ⟨e, he.1, he.2, ?_, rfl⟩
    intro e' he' hn'
    have hin := (hmem e').mpr ⟨he', hn'⟩
    rw [hs] at hin hsorted
    rcases List.mem_cons.mp hin with rfl | htl
    · exact le_refl _
    · exact List.rel_of_sorted_cons hsorted e' htl

/-- C6: when the store holds at least one Event of the monitored identity,
`lastPushHandler` answers 200 with the `pusher_name`, `pusher_email` and
`commit_at` (formatted RFC3339) of an Event of that identity whose
`commit_at` is greater than or equal to that of every Event of that
identity. -/
theorem lastPushHandler_reports_latest (rows : List GithubEvent) (name : String) (now : Time)
    (hours : Int → Nat) (next : Context → Outcome) (c : Context)
    (hex : ∃ e ∈ rows, e.PusherName = name) :
    ∃ e ∈ rows, e.PusherName = name
      ∧ (∀ e' ∈ rows, e'.PusherName = name → e'.CommitAt.unixNano ≤ e.CommitAt.unixNano)
      ∧ lastPushHandler rows name now hours next c
        = Outcome.returned (c.JSON 200
            [("pusher_name", .str e.PusherName),
             ("pusher_email", .str e.PusherEmail),
             ("commit_at", .str e.CommitAt.formatRFC3339),
             ("old", .number (hours (now.UTC.Sub e.CommitAt)))]) := by
  obtain ⟨e, he, hn, hmax, hsel⟩ := selectLastPush_spec rows name hex
  exact ⟨e, he, hn, hmax, by simp [lastPushHandler, hsel]⟩

theorem lastPushHandler_reports_latest_witness :
    (∃ e ∈ demoRows, e.PusherName = "alice")
      ∧ ∃ e ∈ demoRows, e.PusherName = "alice"
        ∧ (∀ e' ∈ demoRows, e'.PusherName = "alice" →
            e'.CommitAt.unixNano ≤ e.CommitAt.unixNano)
        ∧ lastPushHandler demoRows "alice" ⟨1704160800, 0, 0⟩ demoHours Outcome.returned
            demoContext
          = Outcome.returned (demoContext.JSON 200
              [("pusher_name", .str e.PusherName),
               ("pusher_email", .str e.PusherEmail),
               ("commit_at", .str e.CommitAt.formatRFC3339),
               ("old", .number (demoHours ((Time.mk 1704160800 0 0).UTC.Sub e.CommitAt)))]) :=
  ⟨⟨_, List.mem_cons_self _ _, rfl⟩,
    lastPushHandler_reports_latest demoRows "alice" ⟨1704160800, 0, 0⟩ demoHours
      Outcome.returned demoContext ⟨_, List.mem_cons_self _ _, rfl⟩⟩

/-- After two events of `alice` with different commit times (and a later one
of `bob`), the report is the later event of `alice`, two hours old. -/
theorem lastPushHandler_two_events :
    lastPushHandler demoRows "alice" ⟨1704160800, 0, 0⟩ demoHours Outcome.returned demoContext
      = Outcome.returned (demoContext.JSON 200
          [("pusher_name", .str "alice"),
           ("pusher_email", .str "alice@y.org"),
           ("commit_at", .str "2024-01-02T00:00:00Z"),
           ("old", .number 2)]) := by
  rfl

/-- With no Event of the monitored identity the handler panics with
`sql.ErrNoRows`. -/
theorem lastPushHandler_no_rows (rows : List GithubEvent) (name : String) (now : Time)
    (hours : Int → Nat) (next : Context → Outcome) (c : Context)
    (hno : ∀ e ∈ rows, e.PusherName ≠ name) :
    lastPushHandler rows name now hours next c
      = Outcome.panicked "sql: no rows in result set" c := by
  have hnil : rows.filter (fun e => e.PusherName == name) = [] := by
    rw [List.filter_eq_nil_iff]
    intro e he
    simpa using hno e he
  simp [lastPushHandler, selectLastPush, hnil]

/-! ## Further checks of the model -/

/-- A timestamp accepted by the strict RFC3339 parser is accepted by
`time.Parse` with the same time. -/
theorem timeParse_of_parseRFC3339 (parseLayout : String → Except String Time) (value : String)
    (t : Time) (h : parseRFC3339 value = some t) :
    timeParse parseLayout value = (t, none) := by
  simp [timeParse, h]

/-- The same instant written with offset `+07:00` parses to the same Unix
time, and `UTC` gives the time parsed from the `Z` form. -/
theorem parseRFC3339_offset_example :
    parseRFC3339 "2024-01-01T07:00:00+07:00" = some ⟨1704067200, 0, 25200⟩
      ∧ (Time.mk 1704067200 0 25200).UTC = ⟨1704067200, 0, 0⟩
      ∧ parseRFC3339 "2024-01-01T00:00:00Z" = some ⟨1704067200, 0, 0⟩
      ∧ (Time.mk 1704067200 0 0).formatRFC3339 = "2024-01-01T00:00:00Z" := by
  decide

/-- For a payload whose `pusher` is an object without a string `email`, the
handler panics, whatever else the payload holds. -/
theorem githubWebhookHandler_email_panics (decodeJSON : Body → Except String GoMap × Body)
    (parseLayout : String → Except String Time) (next : Context → Outcome) (c : Context)
    (data pusher : GoMap) (rest : Body)
    (hdec : decodeJSON c.requestBody = (.ok data, rest))
    (hp : data.lookup "pusher" = some (.obj pusher))
    (he : ∀ email, pusher.lookup "email" ≠ some (.str email)) :
    githubWebhookHandler decodeJSON parseLayout next c
      = Outcome.panicked ("interface conversion: interface {} is "
          ++ goTypeName (pusher.lookup "email") ++ ", not string")
          { c with requestBody := rest } := by
  simp only [githubWebhookHandler, hdec, hp]

/-- The whole route on a correctly signed request with the payload of
`alicePayload`: both handlers run within the fuel, one Event is submitted
and the answer is 200 `{"message": "cool"}`. -/
theorem githubRoute_accepts_example :
    Context.Next (githubRoute demoHmac demoSecret (decodeTo alicePayload) noLayout) demoContext
      = Outcome.returned
          { requestBody := Body.readable [], requestHeader := headerWith demoSig,
            index := 3,
            writer := { status := 200, written := true,
                        body := [JSON.obj [("message", .str "cool")]] },
            errors := [],
            submitted :=
              [{ PusherName := "alice", PusherEmail := "a@x.com", Payload := alicePayload,
                 CommitAt := ⟨1704067200, 0, 0⟩ }] } := by
  rfl

end GitMonitor
